import Mathlib

/-!
Verification of the CS Community web application (Sky_Hub_Project).

This file gives a shallow embedding of the identity-resolution and
content/interaction core of the repository (app.py, models.py, oauth.py,
forms.py) and proves or refutes the frozen claims about it.

Modelling conventions:
* Python strings are modelled as `List Char`; `str.strip()` is `pyStrip`,
  slicing `s[:n]` is `List.take n`, `len` is `List.length`.
* Database rows are Lean structures; tables are lists of rows inside `DB`.
  SQLAlchemy's `filter_by(...).first()` is `List.find?`, `session.delete`
  of a fetched row is `List.erase`, an insert appends to the list, and an
  update maps over the list replacing the rows with the matched primary key.
* The integer column `likes_count` is an `Int` (it is `nullable=False` with
  `default=0`, so the `or`-guards in `toggle_like` only matter at the value
  `0`, which is falsy in Python; `pyOrInt` models that guard).
* Fallible routes return `Except`; the state they leave behind is returned
  alongside the result so that "no mutation" claims are expressible.
-/

namespace SkyHub

/-- Python whitespace test for the characters relevant to `str.strip()`
(ASCII whitespace; the claims only exercise these). -/
def pyIsSpace (c : Char) : Bool :=
  c = ' ' || c = '\t' || c = '\n' || c = '\r'

/-- Python `str.strip()`: drop leading and trailing whitespace. -/
def pyStrip (s : List Char) : List Char :=
  ((s.dropWhile pyIsSpace).reverse.dropWhile pyIsSpace).reverse

/-- Python `a or b` on integers: `a` is falsy exactly when it is `0`. -/
def pyOrInt (a b : Int) : Int :=
  if a = 0 then b else a

/-- A row of the `user` table.  Mirrors `models.py` class `User`.  The
`password_hash` column is *declared* `nullable=False` there (see
`passwordHashNotNull`), but `oauth.py` constructs rows without it, so the
attribute itself is an `Option`.  The `google_id` attribute is read and
written by `oauth.py` although `models.py` declares no such column (see
`userColumns`); it is kept on the record so that `oauth.py`'s algorithm can
be embedded. -/
structure User where
  id : Nat
  username : List Char
  email : List Char
  password_hash : Option (List Char)
  track : Option (List Char)
  skills : Option (List Char)
  available_for_project : Bool
  github_link : Option (List Char)
  portfolio_link : Option (List Char)
  linkedin_link : Option (List Char)
  phone_number : Option (List Char)
  cv_file : Option (List Char)
  profile_image : List Char
  google_id : Option (List Char)
  deriving DecidableEq, Repr

/-- The columns `models.py` actually declares on the `user` table.
`oauth.py` filters and assigns on `google_id`, which is not among them:
SQLAlchemy raises immediately when `filter_by` names an unmapped attribute. -/
def userColumns : List String :=
  ["id", "username", "email", "password_hash", "track", "skills",
   "available_for_project", "github_link", "portfolio_link", "linkedin_link",
   "phone_number", "cv_file", "profile_image"]

/-- models.py declares `password_hash = db.Column(db.String(256), nullable=False)`:
a row can be committed only if the hash is present. -/
def passwordHashNotNull (u : User) : Bool :=
  u.password_hash.isSome

/-- A row of the `post` table (`models.py` class `Post`).  `date` is an
abstract timestamp no claim observes. -/
structure Post where
  id : Nat
  title : List Char
  content : List Char
  image_file : Option (List Char)
  video_file : Option (List Char)
  date : Nat
  user_id : Nat
  likes_count : Int
  deriving DecidableEq, Repr

/-- A row of the `comment` table (`models.py` class `Comment`). -/
structure Comment where
  id : Nat
  content : List Char
  date : Nat
  user_id : Nat
  post_id : Nat
  deriving DecidableEq, Repr

/-- The persistent store.  A `Like` row is identified by its
`(user_id, post_id)` pair: the table's unique constraint
(`uix_user_post`) makes that pair a key, and no claim observes the
surrogate `id` or `date` columns, so a like is modelled as the pair itself. -/
structure DB where
  users : List User
  posts : List Post
  comments : List Comment
  likes : List (Nat × Nat)
  deriving DecidableEq, Repr

/-- The empty store. -/
def dbEmpty : DB := { users := [], posts := [], comments := [], likes := [] }

/-- Autoincrement primary key for the user table. -/
def freshUserId (db : DB) : Nat :=
  (db.users.map User.id).foldr max 0 + 1

/-! ## Credential store (werkzeug) and local login (app.py `login`) -/

inductive PyError where
  | attributeError
  | invalidRequestError
  | integrityError
  deriving DecidableEq, Repr

/-- `User.check_password` calls `werkzeug.check_password_hash(self.password_hash, pw)`.
When the stored hash is `NULL` the call raises (werkzeug immediately
dereferences the hash string), which is modelled as `attributeError`; the
hash comparison itself is delegated to the abstract `verify` collaborator. -/
def checkPassword (verify : List Char → List Char → Bool)
    (hash : Option (List Char)) (pw : List Char) : Except PyError Bool :=
  match hash with
  | none => .error .attributeError
  | some h => .ok (verify h pw)

inductive AuthFail where
  | invalidCredentials
  | pyError (e : PyError)
  deriving DecidableEq, Repr

/-- app.py `login` route (POST branch, after form validation): look the member
up by email, verify the password, and establish the session (the returned
member id) on success.  Both the unknown-email case and the failed-verification
case flash the same "Incorrect email or password." message, modelled as the
single value `AuthFail.invalidCredentials`.  The route performs no writes, so
the store is returned unchanged. -/
def login (verify : List Char → List Char → Bool)
    (email pw : List Char) (db : DB) : Except AuthFail Nat × DB :=
  match db.users.find? (fun u => u.email == email) with
  | none => (.error .invalidCredentials, db)
  | some u =>
    match checkPassword verify u.password_hash pw with
    | .error e => (.error (.pyError e), db)
    | .ok true => (.ok u.id, db)
    | .ok false => (.error .invalidCredentials, db)

/-! ## Local registration (app.py `register`) -/

inductive RegError where
  | duplicateIdentity
  deriving DecidableEq, Repr

/-- The validated registration form data (fields of `RegistrationForm`;
file uploads are modelled by the filenames `save_cv`/`save_picture` return). -/
structure RegInput where
  username : List Char
  email : List Char
  password : List Char
  track : List Char
  skills : List Char
  available_for_project : Bool
  cv_file : Option (List Char)
  profile_image : Option (List Char)
  deriving DecidableEq, Repr

/-- app.py `register` (POST branch, after form validation): a single combined
lookup `User.username == u OR User.email == e`; on a hit the route only
flashes "Username or email already registered." and commits nothing, otherwise
it inserts the new member with a freshly computed password hash (`hashFn`
models `generate_password_hash`). -/
def register (hashFn : List Char → List Char) (inp : RegInput) (db : DB) :
    Except RegError Unit × DB :=
  if db.users.any (fun u => u.username == inp.username || u.email == inp.email) then
    (.error .duplicateIdentity, db)
  else
    (.ok (),
     { db with users := db.users ++
        [{ id := freshUserId db
           username := inp.username
           email := inp.email
           password_hash := some (hashFn inp.password)
           track := some inp.track
           skills := some inp.skills
           available_for_project := inp.available_for_project
           github_link := none
           portfolio_link := none
           linkedin_link := none
           phone_number := none
           cv_file := inp.cv_file
           profile_image := inp.profile_image.getD "default_profile.png".toList
           google_id := none }] })

/-! ## Post creation: title derivation (forms.py `PostForm` + app.py `new_post`) -/

/-- The stored fields of a freshly created post that the title claims observe. -/
structure PostFields where
  title : List Char
  content : List Char
  deriving DecidableEq, Repr

/-- forms.py `strip_filter`: `x.strip() if x else None`.  An absent or empty
field becomes `None`; a present one is stripped (possibly to the empty
string, e.g. for whitespace-only input). -/
def stripFilter (x : Option (List Char)) : Option (List Char) :=
  match x with
  | none => none
  | some s => if s.isEmpty then none else some (pyStrip s)

/-- `PostForm.title` validation: `Optional()` passes empty data through,
otherwise `Length(max=200)` applies (to the filtered data). -/
def titleFieldOk (td : Option (List Char)) : Bool :=
  match td with
  | none => true
  | some t => t.isEmpty || decide (t.length ≤ 200)

/-- `PostForm.content` validation: `DataRequired()` and `Length(min=1)` reject
absent or empty (hence also whitespace-only, after `strip_filter`) content. -/
def contentFieldOk (cd : Option (List Char)) : Bool :=
  match cd with
  | none => false
  | some c => !c.isEmpty

/-- app.py `new_post`, title computation: strip the supplied title; if empty,
take the first 80 characters of the content, strip them, and append an
ellipsis exactly when the content is longer than 80 characters; fall back to
the literal "Untitled" when the result is still empty. -/
def routeTitle (titleData contentText : List Char) : List Char :=
  let autoTitle := pyStrip titleData
  let autoTitle :=
    if autoTitle.isEmpty then
      let t := pyStrip (contentText.take 80)
      if 80 < contentText.length then t ++ ['…'] else t
    else autoTitle
  if autoTitle.isEmpty then "Untitled".toList else autoTitle

/-- The full `new_post` pipeline on raw form input: `strip_filter` runs on
both fields, validation must pass (`validate_on_submit`), and only then is a
post stored, with the route's derived title.  `none` means no post was
created. -/
def newPost (rawTitle rawContent : Option (List Char)) : Option PostFields :=
  let td := stripFilter rawTitle
  let cd := stripFilter rawContent
  if titleFieldOk td && contentFieldOk cd then
    let contentText := cd.getD []
    some { title := routeTitle (td.getD []) contentText, content := contentText }
  else none

/-- Is the supplied title empty or absent once the form has processed it? -/
def emptyTitleData (rawTitle : Option (List Char)) : Bool :=
  ((stripFilter rawTitle).getD []).isEmpty

/-- Modelled from the claim's words, for comparison with `newPost`: the title
the claim says is stored for non-empty content — "the first 80 characters of
the content, trimmed, with an ellipsis appended exactly when the content is
longer than 80 characters". -/
def claimedTitle (content : List Char) : List Char :=
  pyStrip (content.take 80) ++ (if 80 < content.length then ['…'] else [])

/-! ## Post and comment ownership (app.py `edit_post`/`delete_post`/`edit_comment`/`delete_comment`) -/

inductive AppError where
  | notFound
  | notAuthor
  deriving DecidableEq, Repr

/-- app.py `edit_post`: 404 when the post does not exist, 403 (`NotAuthor`)
when the requester is not the author — both before any mutation; otherwise
title and content are replaced and media files only when new ones were
supplied (`if form.image.data and ...`). -/
def editPost (editorId pid : Nat) (newTitle newContent : List Char)
    (newImage newVideo : Option (List Char)) (db : DB) :
    Except AppError Unit × DB :=
  match db.posts.find? (fun p => p.id == pid) with
  | none => (.error .notFound, db)
  | some p =>
    if p.user_id == editorId then
      (.ok (),
       { db with posts := db.posts.map (fun q =>
          if q.id == pid then
            { q with title := newTitle, content := newContent,
                     image_file := newImage.orElse (fun _ => q.image_file),
                     video_file := newVideo.orElse (fun _ => q.video_file) }
          else q) })
    else (.error .notAuthor, db)

/-- app.py `delete_post`: same guards; deletion cascades to the post's
comments and likes (`cascade="all, delete-orphan"`). -/
def deletePost (editorId pid : Nat) (db : DB) : Except AppError Unit × DB :=
  match db.posts.find? (fun p => p.id == pid) with
  | none => (.error .notFound, db)
  | some p =>
    if p.user_id == editorId then
      (.ok (),
       { db with posts := db.posts.filter (fun q => !(q.id == pid)),
                 comments := db.comments.filter (fun c => !(c.post_id == pid)),
                 likes := db.likes.filter (fun l => !(l.2 == pid)) })
    else (.error .notAuthor, db)

/-- app.py `edit_comment`: 404, then the ownership check, then the update. -/
def editComment (editorId cid : Nat) (newContent : List Char) (db : DB) :
    Except AppError Unit × DB :=
  match db.comments.find? (fun c => c.id == cid) with
  | none => (.error .notFound, db)
  | some c =>
    if c.user_id == editorId then
      (.ok (),
       { db with comments := db.comments.map (fun d =>
          if d.id == cid then { d with content := newContent } else d) })
    else (.error .notAuthor, db)

/-- app.py `delete_comment`: 404, then the ownership check, then the delete. -/
def deleteComment (editorId cid : Nat) (db : DB) : Except AppError Unit × DB :=
  match db.comments.find? (fun c => c.id == cid) with
  | none => (.error .notFound, db)
  | some c =>
    if c.user_id == editorId then
      (.ok (), { db with comments := db.comments.filter (fun d => !(d.id == cid)) })
    else (.error .notAuthor, db)

/-! ## Like toggle (app.py `toggle_like`) -/

/-- The `post.likes_count = ...` assignment: SQLAlchemy updates the row with
the matched primary key `pid`. -/
def bumpCount (pid : Nat) (f : Int → Int) (posts : List Post) : List Post :=
  posts.map (fun p => if p.id == pid then { p with likes_count := f p.likes_count } else p)

/-- app.py `toggle_like`: 404 when the post is missing; otherwise delete the
member's existing `Like` row and set
`likes_count = max((likes_count or 1) - 1, 0)`, or insert a new row and set
`likes_count = (likes_count or 0) + 1`.  The result `some true` is the
"Post liked!" flash, `some false` is "Like removed.", `none` is the 404.
The `IntegrityError` handler around the commit is unreachable in this
sequential model: the insert only runs when the existence check found no row,
so the `(user_id, post_id)` unique constraint cannot fire. -/
def toggleLike (uid pid : Nat) (db : DB) : Option Bool × DB :=
  match db.posts.find? (fun p => p.id == pid) with
  | none => (none, db)
  | some _ =>
    match db.likes.find? (fun l => l.1 == uid && l.2 == pid) with
    | some l =>
      (some false,
       { db with likes := db.likes.erase l,
                 posts := bumpCount pid (fun c => max (pyOrInt c 1 - 1) 0) db.posts })
    | none =>
      (some true,
       { db with likes := db.likes ++ [(uid, pid)],
                 posts := bumpCount pid (fun c => pyOrInt c 0 + 1) db.posts })

/-- A sequence of toggle requests `(member id, post id)`, applied in order. -/
def applyToggles (ops : List (Nat × Nat)) (db : DB) : DB :=
  ops.foldl (fun d op => (toggleLike op.1 op.2 d).2) db

/-- The same member toggling the same post `n` times in a row. -/
def iterToggle : Nat → Nat → Nat → DB → DB
  | 0, _, _, db => db
  | n + 1, uid, pid, db => iterToggle n uid pid (toggleLike uid pid db).2

/-- The like-consistency invariant of the claims: no two `Like` rows for the
same `(member, post)` pair, and every post's denormalized counter equals the
number of `Like` rows for that post. -/
def likeInv (db : DB) : Prop :=
  db.likes.Nodup ∧
  ∀ p ∈ db.posts, p.likes_count = ((db.likes.filter (fun l => l.2 == p.id)).length : Int)

/-! ## SSO login (oauth.py `google_callback` and its helpers) -/

/-- oauth.py `_unique_username`: fall back to "user" on an empty base, return
the candidate if no member holds it, otherwise append one random 6-character
suffix — without re-checking the suffixed name. -/
def uniqueUsername (db : DB) (base : List Char) (suffix : List Char) : List Char :=
  let candidate := if base.isEmpty then "user".toList else base
  if db.users.any (fun u => u.username == candidate) then
    candidate ++ '_' :: suffix
  else candidate

/-- oauth.py line 101: `name.replace(" ", "_").lower()[:40]`. -/
def baseUsername (name : List Char) : List Char :=
  ((name.map (fun c => if c = ' ' then '_' else c)).map Char.toLower).take 40

/-- oauth.py lines 100-105: the username given to the new member row.
`user_info.get("given_name", username)[:50] or username`: when the provider
supplies a non-empty `given_name`, its first 50 characters are used directly
(bypassing `_unique_username`); otherwise the derived unique candidate is. -/
def ssoUsername (db : DB) (name : List Char) (givenName : Option (List Char))
    (suffix : List Char) : List Char :=
  let base := baseUsername name
  let username := uniqueUsername db base suffix
  match givenName with
  | some g => if (g.take 50).isEmpty then username else g.take 50
  | none => if (username.take 50).isEmpty then username else username.take 50

/-- oauth.py lines 104-110: the row the create branch constructs.
`password_hash` is not among the constructor arguments, so the column value
would be `NULL`; `avatarFn` is the filename `_download_google_picture`
returned (an external fetch that falls back to the default avatar). -/
def ssoNewUser (id : Nat) (username email sub avatarFn : List Char) : User :=
  { id := id
    username := username
    email := email
    password_hash := none
    track := none
    skills := none
    available_for_project := true
    github_link := none
    portfolio_link := none
    linkedin_link := none
    phone_number := none
    cv_file := none
    profile_image := avatarFn
    google_id := some sub }

/-- oauth.py `google_callback`, steps 3-4 (after the external token exchange
and nonce check): reject assertions without subject or email; then
`User.query.filter_by(google_id=...)` — which raises `InvalidRequestError`
because `models.py` maps no `google_id` column (see `userColumns`); were the
column mapped, the code would resolve by google id, else link by email, else
insert a new member, whose commit must satisfy the schema constraints
(`password_hash` NOT NULL, unique username and email). -/
def googleCallback (sub email name : List Char) (givenName : Option (List Char))
    (suffix avatarFn : List Char) (db : DB) : Except PyError (Nat × DB) :=
  if sub.isEmpty || email.isEmpty then .error .attributeError
  else if !(userColumns.contains "google_id") then .error .invalidRequestError
  else
    match db.users.find? (fun u => u.google_id == some sub) with
    | some u => .ok (u.id, db)
    | none =>
      match db.users.find? (fun u => u.email == email) with
      | some u =>
        .ok (u.id,
          { db with users := db.users.map (fun v =>
             if v.id == u.id then { v with google_id := some sub } else v) })
      | none =>
        let uname := ssoUsername db name givenName suffix
        let newU := ssoNewUser (freshUserId db) uname email sub avatarFn
        if !(passwordHashNotNull newU) ||
            db.users.any (fun u => u.username == newU.username || u.email == newU.email) then
          .error .integrityError
        else .ok (newU.id, { db with users := db.users ++ [newU] })

/-! ## Concrete states used to exercise the claims -/

/-- A locally registered member with a stored password hash (concrete test row). -/
def plainUser (id : Nat) (username email : List Char) (hash : List Char) : User :=
  { id := id
    username := username
    email := email
    password_hash := some hash
    track := none
    skills := none
    available_for_project := true
    github_link := none
    portfolio_link := none
    linkedin_link := none
    phone_number := none
    cv_file := none
    profile_image := "default_profile.png".toList
    google_id := none }

/-- A bare post row (concrete test row). -/
def mkPost (id authorId : Nat) (cnt : Int) : Post :=
  { id := id
    title := []
    content := []
    image_file := none
    video_file := none
    date := 0
    user_id := authorId
    likes_count := cnt }

/-- A bare comment row (concrete test row). -/
def mkComment (id authorId postId : Nat) : Comment :=
  { id := id, content := "c".toList, date := 0, user_id := authorId, post_id := postId }

/-- Two members and one freshly created post (`likes_count = 0`, no likes). -/
def dbFresh : DB :=
  { users := [plainUser 1 "alice".toList "alice@x.com".toList "h1".toList,
              plainUser 2 "bob".toList "bob@x.com".toList "h2".toList]
    posts := [mkPost 1 1 0]
    comments := []
    likes := [] }

/-- A post already liked by member 7, with a consistent counter. -/
def dbLiked : DB :=
  { users := [], posts := [mkPost 1 1 1], comments := [], likes := [(7, 1)] }

/-- A store that already holds both "bob" and "bob_abc123" as usernames. -/
def dbTwoBobs : DB :=
  { users := [plainUser 1 "bob".toList "bob@x.com".toList "h1".toList,
              plainUser 2 "bob_abc123".toList "bob2@x.com".toList "h2".toList]
    posts := []
    comments := []
    likes := [] }

/-- A store holding the member row the SSO create branch would produce
(no password hash) — the row `models.py` forbids committing. -/
def dbSsoUser : DB :=
  { users := [ssoNewUser 1 "bob".toList "sso@example.com".toList "g7".toList
                "default_profile.png".toList]
    posts := []
    comments := []
    likes := [] }

/-- A registration request that reuses alice's email under a new username. -/
def regCarol : RegInput :=
  { username := "carol".toList
    email := "alice@x.com".toList
    password := "p".toList
    track := "Web Development".toList
    skills := "s".toList
    available_for_project := true
    cv_file := none
    profile_image := none }

/-- A registration request reusing carol's email under yet another username. -/
def regDave : RegInput :=
  { regCarol with username := "dave".toList }

/-- A registration request reusing carol's username under a fresh email. -/
def regCarol2 : RegInput :=
  { regCarol with email := "carol2@x.com".toList }

/-- A post by member 1 and a comment by member 1, for the ownership claims. -/
def dbOwned : DB :=
  { users := [plainUser 1 "alice".toList "alice@x.com".toList "h1".toList]
    posts := [mkPost 5 1 0]
    comments := [mkComment 9 1 5]
    likes := [] }

/-! ## General lemmas about the helpers -/

theorem dropWhile_head_false {α : Type*} {p : α → Bool} {l t : List α} {a : α}
    (h : l.dropWhile p = a :: t) : p a = false := by
  induction l with
  | nil => simp at h
  | cons b l ih =>
    rw [List.dropWhile_cons] at h
    split at h
    · exact ih h
    · rename_i hb
      obtain ⟨rfl, -⟩ := List.cons.inj h
      simpa using hb

theorem dropWhile_idem {α : Type*} (p : α → Bool) (l : List α) :
    (l.dropWhile p).dropWhile p = l.dropWhile p := by
  cases h : l.dropWhile p with
  | nil => simp
  | cons a t => rw [List.dropWhile_cons]; simp [dropWhile_head_false h]

theorem lstrip_rstrip {l : List Char} (h : l.dropWhile pyIsSpace = l) :
    ((l.reverse.dropWhile pyIsSpace).reverse).dropWhile pyIsSpace =
      (l.reverse.dropWhile pyIsSpace).reverse := by
  cases l with
  | nil => simp
  | cons a t =>
    have ha : pyIsSpace a = false := by
      by_contra hcon
      rw [Bool.not_eq_false] at hcon
      rw [List.dropWhile_cons, if_pos hcon] at h
      have hle := (List.dropWhile_sublist (l := t) pyIsSpace).length_le
      rw [h] at hle
      simp only [List.length_cons] at hle
      omega
    rw [List.reverse_cons, List.dropWhile_append]
    split
    · simp [List.dropWhile_cons, ha]
    · rw [List.reverse_append]
      simp [List.dropWhile_cons, ha]

theorem pyStrip_idem (s : List Char) : pyStrip (pyStrip s) = pyStrip s := by
  unfold pyStrip
  rw [lstrip_rstrip (dropWhile_idem pyIsSpace s), List.reverse_reverse, dropWhile_idem]

theorem pyOrInt_zero_right (c : Int) : pyOrInt c 0 = c := by
  unfold pyOrInt
  split <;> omega

theorem filter_erase_false {α : Type*} [BEq α] [LawfulBEq α] (p : α → Bool)
    (l : List α) (a : α) (hp : p a = false) :
    (l.erase a).filter p = l.filter p := by
  induction l with
  | nil => rfl
  | cons b t ih =>
    rw [List.erase_cons]
    by_cases hb : b = a
    · subst hb
      rw [if_pos (by simp)]
      simp [List.filter_cons, hp]
    · rw [if_neg (by simpa using hb)]
      simp only [List.filter_cons, ih]

theorem length_filter_erase {α : Type*} [BEq α] [LawfulBEq α] (p : α → Bool)
    (l : List α) (a : α) (hmem : a ∈ l) (hp : p a = true) :
    ((l.erase a).filter p).length + 1 = (l.filter p).length := by
  induction l with
  | nil => cases hmem
  | cons b t ih =>
    rw [List.erase_cons]
    by_cases hb : b = a
    · subst hb
      rw [if_pos (by simp)]
      simp [List.filter_cons, hp]
    · rw [if_neg (by simpa using hb)]
      have hmem' : a ∈ t := by
        rcases List.mem_cons.mp hmem with rfl | hmem'
        · exact absurd rfl hb
        · exact hmem'
      have ih' := ih hmem'
      by_cases hpb : p b = true
      · simp only [List.filter_cons, hpb, if_true, List.length_cons]
        omega
      · simp only [List.filter_cons, hpb, if_false]
        rw [if_neg (by simp [hpb]), if_neg (by simp [hpb])]
        exact ih'

theorem bumpCount_id (pid : Nat) (f : Int → Int) (posts : List Post)
    (h : ∀ p ∈ posts, p.id = pid → f p.likes_count = p.likes_count) :
    bumpCount pid f posts = posts := by
  unfold bumpCount
  have hpt : ∀ p ∈ posts,
      (if p.id == pid then { p with likes_count := f p.likes_count } else p) = p := by
    intro p hp
    by_cases hid : p.id = pid
    · rw [if_pos (by simpa using hid)]
      have hfc := h p hp hid
      cases p
      simp_all
    · rw [if_neg (by simpa using hid)]
  rw [List.map_congr_left hpt]
  exact List.map_id' posts

theorem bumpCount_bumpCount (pid : Nat) (f g : Int → Int) (posts : List Post) :
    bumpCount pid f (bumpCount pid g posts) = bumpCount pid (fun c => f (g c)) posts := by
  unfold bumpCount
  rw [List.map_map]
  apply List.map_congr_left
  intro p _
  by_cases hid : p.id = pid <;> simp [Function.comp, beq_iff_eq, hid]

theorem find?_bumpCount (pid : Nat) (f : Int → Int) (posts : List Post) :
    (bumpCount pid f posts).find? (fun p => p.id == pid) =
      (posts.find? (fun p => p.id == pid)).map
        (fun p => { p with likes_count := f p.likes_count }) := by
  induction posts with
  | nil => rfl
  | cons q t ih =>
    unfold bumpCount at *
    by_cases hq : q.id = pid
    · rw [List.map_cons, if_pos (by simpa using hq)]
      rw [List.find?_cons_of_pos _ (by simpa using hq),
          List.find?_cons_of_pos _ (by simpa using hq)]
      rfl
    · rw [List.map_cons, if_neg (by simpa using hq)]
      rw [List.find?_cons_of_neg _ (by simpa using hq),
          List.find?_cons_of_neg _ (by simpa using hq)]
      exact ih

theorem likePred_eq {uid pid : Nat} {l : Nat × Nat} :
    ((l.1 == uid && l.2 == pid) = true) ↔ l = (uid, pid) := by
  cases l
  simp [Prod.ext_iff]

/-! ## The like toggle preserves the counter invariant -/

theorem likeInv_toggle (uid pid : Nat) (db : DB) (h : likeInv db) :
    likeInv (toggleLike uid pid db).2 := by
  obtain ⟨hnd, hcnt⟩ := h
  unfold toggleLike
  cases hfp : db.posts.find? (fun p => p.id == pid) with
  | none => exact ⟨hnd, hcnt⟩
  | some p0 =>
    cases hfl : db.likes.find? (fun l => l.1 == uid && l.2 == pid) with
    | some l =>
      have hpl := List.find?_some hfl
      have hl : l = (uid, pid) := likePred_eq.mp hpl
      have hmem : l ∈ db.likes := List.mem_of_find?_eq_some hfl
      subst hl
      refine ⟨hnd.erase _, ?_⟩
      intro p hp
      simp only [bumpCount, List.mem_map] at hp
      obtain ⟨q, hq, rfl⟩ := hp
      by_cases hid : q.id = pid
      · rw [if_pos (by simpa using hid)]
        simp only
        have hqc := hcnt q hq
        have hlen := length_filter_erase (fun l => l.2 == q.id) db.likes (uid, pid)
          hmem (by simp [hid])
        have hpos : 0 < (db.likes.filter (fun l => l.2 == q.id)).length := by omega
        rw [hqc]
        unfold pyOrInt
        rw [if_neg (by exact_mod_cast hpos.ne')]
        rw [max_eq_left (by omega)]
        omega
      · rw [if_neg (by simpa using hid)]
        simp only
        rw [filter_erase_false _ _ _ (by simp [beq_iff_eq]; omega)]
        exact hcnt q hq
    | none =>
      have hnotmem : (uid, pid) ∉ db.likes := by
        intro hmem
        have := List.find?_eq_none.mp hfl (uid, pid) hmem
        simp at this
      refine ⟨?_, ?_⟩
      · rw [List.nodup_append]
        refine ⟨hnd, List.nodup_singleton _, ?_⟩
        intro a ha hb
        simp only [List.mem_singleton] at hb
        subst hb
        exact hnotmem ha
      · intro p hp
        simp only [bumpCount, List.mem_map] at hp
        obtain ⟨q, hq, rfl⟩ := hp
        by_cases hid : q.id = pid
        · rw [if_pos (by simpa using hid)]
          simp only
          rw [List.filter_append]
          have hsingle : [(uid, pid)].filter (fun l => l.2 == q.id) = [(uid, pid)] := by
            simp [hid]
          rw [hsingle, hcnt q hq]
          unfold pyOrInt
          simp only [List.length_append, List.length_singleton]
          split <;> omega
        · rw [if_neg (by simpa using hid)]
          simp only
          rw [List.filter_append]
          have hsingle : [(uid, pid)].filter (fun l => l.2 == q.id) = [] := by
            simp [beq_iff_eq]
            omega
          rw [hsingle, List.append_nil]
          exact hcnt q hq

/-- C1: starting from any state satisfying the like-consistency invariant (in
particular from a freshly created post with `like_count = 0` and an empty
Like set), any sequence of `toggle_like` operations by any members keeps
every post's denormalized `likes_count` equal to the number of Like rows for
that post, and the Like table never holds two rows for the same
(member, post) pair. -/
theorem C1_like_counter_invariant (db : DB) (h : likeInv db)
    (ops : List (Nat × Nat)) : likeInv (applyToggles ops db) := by
  induction ops generalizing db with
  | nil => exact h
  | cons op t ih =>
    have hstep := likeInv_toggle op.1 op.2 db h
    have : applyToggles (op :: t) db = applyToggles t (toggleLike op.1 op.2 db).2 := rfl
    rw [this]
    exact ih _ hstep

/-- C1 witness: the invariant is checked concretely after the sequence
like, like-by-another, unlike on a fresh post. -/
theorem C1_like_counter_invariant_witness :
    likeInv (applyToggles [(1, 1), (2, 1), (1, 1)] dbFresh) :=
  C1_like_counter_invariant dbFresh (by unfold likeInv; decide) [(1, 1), (2, 1), (1, 1)]

/-! ## The counter never becomes negative -/

theorem toggle_nonneg (uid pid : Nat) (db : DB)
    (h : ∀ p ∈ db.posts, 0 ≤ p.likes_count) :
    ∀ p ∈ (toggleLike uid pid db).2.posts, 0 ≤ p.likes_count := by
  unfold toggleLike
  cases hfp : db.posts.find? (fun p => p.id == pid) with
  | none => exact h
  | some p0 =>
    cases hfl : db.likes.find? (fun l => l.1 == uid && l.2 == pid) with
    | some l =>
      intro p hp
      simp only [bumpCount, List.mem_map] at hp
      obtain ⟨q, hq, hpe⟩ := hp
      by_cases hid : q.id = pid
      · rw [if_pos (by simpa using hid)] at hpe
        rw [← hpe]
        exact le_max_right _ _
      · rw [if_neg (by simpa using hid)] at hpe
        rw [← hpe]
        exact h q hq
    | none =>
      intro p hp
      simp only [bumpCount, List.mem_map] at hp
      obtain ⟨q, hq, hpe⟩ := hp
      by_cases hid : q.id = pid
      · rw [if_pos (by simpa using hid)] at hpe
        rw [← hpe]
        have hq0 := h q hq
        simp only
        unfold pyOrInt
        split <;> omega
      · rw [if_neg (by simpa using hid)] at hpe
        rw [← hpe]
        exact h q hq

/-- C3: from any store whose counters are at their reachable (non-negative)
values — in particular any pathologically desynchronized one — no sequence of
`toggle_like` operations can drive any post's `likes_count` negative; and the
decrement branch alone clamps the updated post's counter at 0 whatever the
prior counter value was. -/
theorem C3_count_never_negative (db : DB)
    (h : ∀ p ∈ db.posts, 0 ≤ p.likes_count) (ops : List (Nat × Nat)) :
    (∀ p ∈ (applyToggles ops db).posts, 0 ≤ p.likes_count)
  ∧ (∀ uid pid (d : DB), (uid, pid) ∈ d.likes →
       ∀ p ∈ (toggleLike uid pid d).2.posts, p.id = pid → 0 ≤ p.likes_count) := by
  constructor
  · induction ops generalizing db with
    | nil => exact h
    | cons op t ih =>
      have hstep := toggle_nonneg op.1 op.2 db h
      have heq : applyToggles (op :: t) db = applyToggles t (toggleLike op.1 op.2 db).2 := rfl
      rw [heq]
      exact ih _ hstep
  · intro uid pid d hmem p hp hid
    unfold toggleLike at hp
    cases hfp : d.posts.find? (fun q => q.id == pid) with
    | none =>
      rw [hfp] at hp
      have := List.find?_eq_none.mp hfp p hp
      simp [hid] at this
    | some p0 =>
      rw [hfp] at hp
      have hsome : (d.likes.find? (fun l => l.1 == uid && l.2 == pid)).isSome := by
        rw [List.find?_isSome]
        exact ⟨(uid, pid), hmem, by simp⟩
      obtain ⟨l, hfl⟩ := Option.isSome_iff_exists.mp hsome
      rw [hfl] at hp
      simp only [bumpCount, List.mem_map] at hp
      obtain ⟨q, hq, hpe⟩ := hp
      by_cases hqid : q.id = pid
      · rw [if_pos (by simpa using hqid)] at hpe
        rw [← hpe]
        exact le_max_right _ _
      · rw [if_neg (by simpa using hqid)] at hpe
        rw [← hpe] at hid
        exact absurd hid hqid

/-- C3 witness: exercised on a concrete store and toggle sequence, reading
back the first post's counter. -/
theorem C3_count_never_negative_witness :
    0 ≤ ((applyToggles [(1, 1), (1, 1), (2, 1)] dbFresh).posts.getD 0 (mkPost 0 0 0)).likes_count :=
  (C3_count_never_negative dbFresh (by decide) [(1, 1), (1, 1), (2, 1)]).1 _ (by decide)

/-! ## Toggling twice restores the state -/

theorem toggleLike_insert (uid pid : Nat) (d : DB) (p0 : Post)
    (hp : d.posts.find? (fun p => p.id == pid) = some p0)
    (hl : d.likes.find? (fun l => l.1 == uid && l.2 == pid) = none) :
    toggleLike uid pid d =
      (some true,
       { d with likes := d.likes ++ [(uid, pid)],
                posts := bumpCount pid (fun c => pyOrInt c 0 + 1) d.posts }) := by
  unfold toggleLike
  rw [hp, hl]

theorem toggleLike_delete (uid pid : Nat) (d : DB)
    (hl : d.likes.find? (fun l => l.1 == uid && l.2 == pid) = some (uid, pid))
    (p0 : Post) (hp : d.posts.find? (fun p => p.id == pid) = some p0) :
    toggleLike uid pid d =
      (some false,
       { d with likes := d.likes.erase (uid, pid),
                posts := bumpCount pid (fun c => max (pyOrInt c 1 - 1) 0) d.posts }) := by
  unfold toggleLike
  rw [hp, hl]

theorem count_roundtrip (c : Int) (hc : 0 ≤ c) :
    max (pyOrInt (pyOrInt c 0 + 1) 1 - 1) 0 = c := by
  unfold pyOrInt
  simp only [max_def]
  split_ifs <;> omega

theorem toggle_twice_restore (uid pid : Nat) (db : DB)
    (hpost : (db.posts.find? (fun p => p.id == pid)).isSome = true)
    (hnot : (uid, pid) ∉ db.likes)
    (hcnt : ∀ p ∈ db.posts, p.id = pid → 0 ≤ p.likes_count) :
    (toggleLike uid pid db).1 = some true
  ∧ (toggleLike uid pid (toggleLike uid pid db).2).1 = some false
  ∧ (toggleLike uid pid (toggleLike uid pid db).2).2 = db := by
  obtain ⟨p0, hp0⟩ := Option.isSome_iff_exists.mp hpost
  have hfl : db.likes.find? (fun l => l.1 == uid && l.2 == pid) = none := by
    rw [List.find?_eq_none]
    intro x hx hpx
    exact hnot (likePred_eq.mp hpx ▸ hx)
  have h1 := toggleLike_insert uid pid db p0 hp0 hfl
  have hfind2 : (bumpCount pid (fun c => pyOrInt c 0 + 1) db.posts).find?
      (fun p => p.id == pid) =
      some { p0 with likes_count := pyOrInt p0.likes_count 0 + 1 } := by
    rw [find?_bumpCount, hp0]
    rfl
  have hlikes2 : (db.likes ++ [(uid, pid)]).find?
      (fun l => l.1 == uid && l.2 == pid) = some (uid, pid) := by
    rw [List.find?_append, hfl]
    simp
  have hS := toggleLike_delete uid pid
    { db with likes := db.likes ++ [(uid, pid)],
              posts := bumpCount pid (fun c => pyOrInt c 0 + 1) db.posts }
    (by exact hlikes2) _ (by exact hfind2)
  refine ⟨by rw [h1], ?_, ?_⟩
  · rw [h1]
    dsimp only
    rw [hS]
  · rw [h1]
    dsimp only
    rw [hS]
    dsimp only
    rw [List.erase_append_right _ hnot, List.erase_cons_head, List.append_nil,
        bumpCount_bumpCount, bumpCount_id _ _ _ (fun p hp hid => count_roundtrip _ (hcnt p hp hid))]

/-- C2 counterexample: on a post the member has already liked (consistent
state: one Like, counter 1), the *second* of two successive toggles returns
`liked=true`, not the `liked=false` the claim demands for any starting
state. -/
theorem C2_counterexample :
    (toggleLike 7 1 dbLiked).1 = some false
  ∧ (toggleLike 7 1 (toggleLike 7 1 dbLiked).2).1 = some true := by
  exact ⟨rfl, rfl⟩

/-- C2 (amended): restricted to states where the member has no prior Like on
the post (with any non-negative, possibly desynchronized counter), two
successive toggles restore the store exactly, with the first returning
`liked=true` and the second `liked=false`; and from a post whose counter is 0
with no prior Like by that member, any odd number of toggles leaves the Like
present and the counter at 1. -/
theorem C2_toggle_roundtrip (uid pid : Nat) (db : DB)
    (hpost : (db.posts.find? (fun p => p.id == pid)).isSome = true)
    (hnot : (uid, pid) ∉ db.likes)
    (hcnt : ∀ p ∈ db.posts, p.id = pid → 0 ≤ p.likes_count) :
    ((toggleLike uid pid db).1 = some true
     ∧ (toggleLike uid pid (toggleLike uid pid db).2).1 = some false
     ∧ (toggleLike uid pid (toggleLike uid pid db).2).2 = db)
  ∧ (∀ k : Nat, (∀ p ∈ db.posts, p.id = pid → p.likes_count = 0) →
      (uid, pid) ∈ (iterToggle (2 * k + 1) uid pid db).likes
      ∧ ∀ p ∈ (iterToggle (2 * k + 1) uid pid db).posts,
          p.id = pid → p.likes_count = 1) := by
  have hrestore := toggle_twice_restore uid pid db hpost hnot hcnt
  refine ⟨hrestore, ?_⟩
  intro k hzero
  have hiter : iterToggle (2 * k + 1) uid pid db = (toggleLike uid pid db).2 := by
    induction k with
    | zero => rfl
    | succ k ih =>
      have harith : 2 * (k + 1) + 1 = (2 * k + 1) + 2 := by ring
      have hstep : iterToggle ((2 * k + 1) + 2) uid pid db =
          iterToggle (2 * k + 1) uid pid
            (toggleLike uid pid (toggleLike uid pid db).2).2 := rfl
      rw [harith, hstep, hrestore.2.2]
      exact ih
  obtain ⟨p0, hp0⟩ := Option.isSome_iff_exists.mp hpost
  have hfl : db.likes.find? (fun l => l.1 == uid && l.2 == pid) = none := by
    rw [List.find?_eq_none]
    intro x hx hpx
    exact hnot (likePred_eq.mp hpx ▸ hx)
  have h1 := toggleLike_insert uid pid db p0 hp0 hfl
  rw [hiter, h1]
  dsimp only
  constructor
  · exact List.mem_append_right _ (List.mem_singleton_self _)
  · intro p hp hid
    simp only [bumpCount, List.mem_map] at hp
    obtain ⟨q, hq, hpe⟩ := hp
    by_cases hqid : q.id = pid
    · rw [if_pos (by simpa using hqid)] at hpe
      rw [← hpe]
      have h0 := hzero q hq hqid
      simp only [h0]
      rfl
    · rw [if_neg (by simpa using hqid)] at hpe
      rw [← hpe] at hid
      exact absurd hid hqid

/-- C2 witness: the amended claim checked on a fresh post, including the
seventh iterate of the toggle. -/
theorem C2_toggle_roundtrip_witness :
    (toggleLike 1 1 dbFresh).1 = some true
  ∧ (toggleLike 1 1 (toggleLike 1 1 dbFresh).2).1 = some false
  ∧ (toggleLike 1 1 (toggleLike 1 1 dbFresh).2).2 = dbFresh
  ∧ (1, 1) ∈ (iterToggle 7 1 1 dbFresh).likes := by
  have h := C2_toggle_roundtrip 1 1 dbFresh (by decide) (by decide) (by decide)
  exact ⟨h.1.1, h.1.2.1, h.1.2.2, (h.2 3 (by decide)).1⟩

/-! ## Title derivation for new posts -/

set_option maxRecDepth 4000 in
/-- C4 counterexample: with no title supplied, empty content creates no post
at all (form validation rejects it) instead of storing a post titled
"Untitled"; and content of length 100 whose tail is whitespace is stored
trimmed to 30 characters, titled without the ellipsis the claim derives from
the supplied content. -/
theorem C4_counterexample :
    newPost none (some []) = none
  ∧ newPost none (some (List.replicate 30 'a' ++ List.replicate 70 ' ')) =
      some { title := List.replicate 30 'a', content := List.replicate 30 'a' }
  ∧ claimedTitle (List.replicate 30 'a' ++ List.replicate 70 ' ') =
      List.replicate 30 'a' ++ ['…'] := by
  refine ⟨rfl, by decide, by decide⟩

/-- C4 (amended): for the full `new_post` pipeline with an empty or absent
title, a stored post's content is the supplied content trimmed and non-empty,
and its stored title is the first 80 characters of that *stored* content,
trimmed, with an ellipsis appended exactly when the stored content is longer
than 80 characters; requests whose content is absent, empty or whitespace-only
are rejected by form validation and store nothing, so the route never stores
the "Untitled" fallback. -/
theorem C4_title_derivation :
    (∀ rawTitle, newPost rawTitle none = none)
  ∧ (∀ rawTitle s, pyStrip s = [] → newPost rawTitle (some s) = none)
  ∧ (∀ rawTitle rawContent p, newPost rawTitle rawContent = some p →
      emptyTitleData rawTitle = true →
      p.title = pyStrip (p.content.take 80) ++
        (if 80 < p.content.length then ['…'] else [])
      ∧ p.content ≠ []) := by
  refine ⟨?_, ?_, ?_⟩
  · intro rawTitle
    simp [newPost, stripFilter, contentFieldOk]
  · intro rawTitle s hs
    by_cases hnil : s.isEmpty
    · simp [newPost, stripFilter, contentFieldOk, hnil]
    · simp [newPost, stripFilter, contentFieldOk, hnil, hs]
  · intro rawTitle rawContent p hnp hempty
    simp only [newPost] at hnp
    split at hnp
    case isFalse => exact absurd hnp (by simp)
    case isTrue hcond =>
      have hcf : contentFieldOk (stripFilter rawContent) = true :=
        (Bool.and_eq_true _ _ |>.mp hcond).2
      cases hcd : stripFilter rawContent with
      | none => rw [hcd] at hcf; exact absurd hcf (by simp [contentFieldOk])
      | some c =>
        rw [hcd] at hcf
        have hcne : c ≠ [] := by
          simp only [contentFieldOk, Bool.not_eq_true'] at hcf
          exact fun hh => by simp [hh] at hcf
        have hcs : c = pyStrip c := by
          cases hrc : rawContent with
          | none => rw [hrc] at hcd; exact absurd hcd (by simp [stripFilter])
          | some s =>
            rw [hrc] at hcd
            simp only [stripFilter] at hcd
            split at hcd
            · exact absurd hcd (by simp)
            · have := Option.some.inj hcd
              rw [← this, pyStrip_idem]
        have htd : (stripFilter rawTitle).getD [] = [] := by
          rw [emptyTitleData, List.isEmpty_iff] at hempty
          exact hempty
        rw [hcd] at hnp
        have hp := (Option.some.inj hnp).symm
        rw [hp]
        simp only [Option.getD_some]
        have htitle : routeTitle ((stripFilter rawTitle).getD []) c =
            pyStrip (c.take 80) ++ (if 80 < c.length then ['…'] else []) := by
          rw [htd]
          simp only [routeTitle]
          have h0 : pyStrip [] = [] := rfl
          rw [h0]
          simp only [List.isEmpty_nil, if_true]
          by_cases h80 : 80 < c.length
          · rw [if_pos h80, if_pos h80]
            have hne : (pyStrip (c.take 80) ++ ['…']).isEmpty = false := by
              simp [List.isEmpty_iff]
            rw [hne]
            simp
          · rw [if_neg h80, if_neg h80]
            have htk : c.take 80 = c := List.take_of_length_le (by omega)
            rw [htk, ← hcs]
            have hne : c.isEmpty = false := by
              simp [List.isEmpty_iff, hcne]
            rw [hne]
            simp
        exact ⟨htitle, hcne⟩

/-- C4 witness: a rejected whitespace-only submission and an accepted one,
checked concretely. -/
theorem C4_title_derivation_witness :
    newPost none (some [' ', ' ']) = none
  ∧ ({ title := "hi".toList, content := "hi".toList } : PostFields).title =
      pyStrip (("hi".toList : List Char).take 80) ++
        (if 80 < ("hi".toList : List Char).length then ['…'] else []) :=
  ⟨C4_title_derivation.2.1 none [' ', ' '] (by decide),
   (C4_title_derivation.2.2 none (some "  hi  ".toList)
     { title := "hi".toList, content := "hi".toList } (by decide) (by decide)).1⟩

/-! ## SSO identity resolution -/

/-- C5: evaluated at a failing input — a fresh assertion (subject "g1",
an email unknown to the store) against the empty store — the SSO callback
raises at its very first lookup (`filter_by(google_id=...)` on a model with
no `google_id` column) instead of creating and returning a member; so the
claimed resolution order, and in particular the idempotent identity for a
new subject, never gets to run. -/
theorem C5_sso_resolution_crashes :
    googleCallback "g1".toList "new@example.com".toList "New User".toList
      (some "New".toList) "abc123".toList "default_profile.png".toList dbEmpty =
      .error .invalidRequestError := rfl

/-- C6: the SSO create branch builds a member row with no password hash, but
`models.py` declares `password_hash` NOT NULL, so the row cannot be committed;
and if such a member existed, `check_password` on a `NULL` hash raises
(`AttributeError`) rather than reporting `InvalidCredentials`, so a local
login against that member's email surfaces an error distinct from the
bad-credentials outcome. -/
theorem C6_sso_member_password_hash :
    (∀ id un em sub av, passwordHashNotNull (ssoNewUser id un em sub av) = false)
  ∧ (∀ verify pw, checkPassword verify none pw = .error .attributeError)
  ∧ (∀ verify pw, login verify "sso@example.com".toList pw dbSsoUser =
      (.error (.pyError .attributeError), dbSsoUser)) := by
  exact ⟨fun id un em sub av => rfl, fun verify pw => rfl, fun verify pw => rfl⟩

/-- C7 counterexample: for an assertion with display name "Bob Smith" and
given name "Bob" against the empty store, the username handed to the new
member row is "Bob" — the raw `given_name` truncated to 50 characters — not
the claimed candidate "bob_smith" derived by lower-casing and
space-replacement (which is free in the store, so per the claim it would have
to be stored unchanged). -/
theorem C7_counterexample :
    ssoUsername dbEmpty "Bob Smith".toList (some "Bob".toList) "abc123".toList =
      "Bob".toList
  ∧ baseUsername "Bob Smith".toList = "bob_smith".toList
  ∧ uniqueUsername dbEmpty "bob_smith".toList "abc123".toList = "bob_smith".toList
  := by
  refine ⟨by decide, by decide, by decide⟩

/-- C7 (amended): when the assertion carries a non-empty `given_name`, the
new member's username is that `given_name` truncated to 50 characters, with
no uniqueness treatment at all; only when `given_name` is absent (or empty)
is it the candidate derived from the display name (lower-cased, spaces
replaced, truncated to 40 characters), and a collision is handled by
appending one random suffix once, without re-checking, retrying, or any
`IdentityCreationFailed` — the suffixed name can itself collide. -/
theorem C7_sso_username_derivation :
    (∀ db name g suffix, ssoUsername db name (some g) suffix =
      (if (g.take 50).isEmpty then uniqueUsername db (baseUsername name) suffix
       else g.take 50))
  ∧ (∀ db name suffix, ssoUsername db name none suffix =
      (let u := uniqueUsername db (baseUsername name) suffix
       if (u.take 50).isEmpty then u else u.take 50))
  ∧ (∀ db base suffix, uniqueUsername db base suffix =
      (let c := if base.isEmpty then "user".toList else base
       if db.users.any (fun u => u.username == c) then c ++ '_' :: suffix else c))
  ∧ (dbTwoBobs.users.any (fun u =>
      u.username == ssoUsername dbTwoBobs "Bob".toList none "abc123".toList)) = true := by
  refine ⟨fun db name g suffix => rfl, fun db name suffix => rfl,
    fun db base suffix => rfl, by decide⟩

/-! ## Local registration duplicates -/

/-- C8: registration fails with the single `DuplicateIdentity` outcome
whenever the combined username-or-email lookup hits, leaving the store
untouched; consequently a second registration reusing the email (with any
other username) fails, and likewise one reusing the username. -/
theorem C8_duplicate_identity (hashFn : List Char → List Char)
    (i1 i2 : RegInput) (db db1 : DB) :
    (∀ inp dbx,
      ((dbx : DB).users.any (fun u => u.username == (inp : RegInput).username
         || u.email == inp.email)) = true →
      register hashFn inp dbx = (.error .duplicateIdentity, dbx))
  ∧ (register hashFn i1 db = (.ok (), db1) → i2.email = i1.email →
      register hashFn i2 db1 = (.error .duplicateIdentity, db1))
  ∧ (register hashFn i1 db = (.ok (), db1) → i2.username = i1.username →
      register hashFn i2 db1 = (.error .duplicateIdentity, db1)) := by
  have hdup : ∀ inp dbx,
      ((dbx : DB).users.any (fun u => u.username == (inp : RegInput).username
         || u.email == inp.email)) = true →
      register hashFn inp dbx = (.error .duplicateIdentity, dbx) := by
    intro inp dbx h
    unfold register
    rw [if_pos h]
  have hinv : ∀ inp dbx dby, register hashFn inp dbx = (.ok (), dby) →
      ∃ newRows, dby.users = dbx.users ++ newRows ∧
        ∃ u ∈ newRows, u.username = inp.username ∧ u.email = inp.email := by
    intro inp dbx dby hok
    unfold register at hok
    split at hok
    · exact absurd hok (by simp)
    · have hsnd := congrArg Prod.snd hok
      dsimp only at hsnd
      subst hsnd
      exact ⟨_, rfl, _, List.mem_singleton_self _, rfl, rfl⟩
  refine ⟨hdup, ?_, ?_⟩
  · intro hok he
    obtain ⟨rows, hrows, u, hu, -, hue⟩ := hinv i1 db db1 hok
    apply hdup
    rw [hrows, List.any_append]
    have : rows.any (fun v => v.username == i2.username || v.email == i2.email) = true := by
      refine List.any_eq_true.mpr ⟨u, hu, ?_⟩
      simp [hue, he]
    simp [this]
  · intro hok hu2
    obtain ⟨rows, hrows, u, hu, hun, -⟩ := hinv i1 db db1 hok
    apply hdup
    rw [hrows, List.any_append]
    have : rows.any (fun v => v.username == i2.username || v.email == i2.email) = true := by
      refine List.any_eq_true.mpr ⟨u, hu, ?_⟩
      simp [hun, hu2]
    simp [this]

/-- C8 witness: registering alice then a different username with alice's
email, and a different email with alice's username, both rejected. -/
theorem C8_duplicate_identity_witness :
    register (fun pw => pw) regCarol dbFresh = (.error .duplicateIdentity, dbFresh)
  ∧ register (fun pw => pw) regDave ((register (fun pw => pw) regCarol dbEmpty).2) =
      (.error .duplicateIdentity, (register (fun pw => pw) regCarol dbEmpty).2)
  ∧ register (fun pw => pw) regCarol2 ((register (fun pw => pw) regCarol dbEmpty).2) =
      (.error .duplicateIdentity, (register (fun pw => pw) regCarol dbEmpty).2) :=
  ⟨(C8_duplicate_identity (fun pw => pw) regCarol regCarol dbFresh dbFresh).1
     regCarol dbFresh (by decide),
   (C8_duplicate_identity (fun pw => pw) regCarol regDave dbEmpty
     ((register (fun pw => pw) regCarol dbEmpty).2)).2.1 (by rfl) (by decide),
   (C8_duplicate_identity (fun pw => pw) regCarol regCarol2 dbEmpty
     ((register (fun pw => pw) regCarol dbEmpty).2)).2.2 (by rfl) (by decide)⟩

/-! ## Ownership of posts and comments -/

/-- C9: every edit or delete attempt on a post or a comment by a member who
is not its author fails with the `NotAuthor` rejection (HTTP 403) and leaves
the entire store unchanged. -/
theorem C9_not_author (editor pid cid : Nat) (t c ncc : List Char)
    (img vid : Option (List Char)) (db : DB) (p : Post) (cm : Comment)
    (hp : db.posts.find? (fun q => q.id == pid) = some p)
    (hpa : p.user_id ≠ editor)
    (hc : db.comments.find? (fun d => d.id == cid) = some cm)
    (hca : cm.user_id ≠ editor) :
    editPost editor pid t c img vid db = (.error .notAuthor, db)
  ∧ deletePost editor pid db = (.error .notAuthor, db)
  ∧ editComment editor cid ncc db = (.error .notAuthor, db)
  ∧ deleteComment editor cid db = (.error .notAuthor, db) := by
  have hpb : (p.user_id == editor) = false := by
    simp [hpa]
  have hcb : (cm.user_id == editor) = false := by
    simp [hca]
  refine ⟨?_, ?_, ?_, ?_⟩
  · simp [editPost, hp, hpb]
  · simp [deletePost, hp, hpb]
  · simp [editComment, hc, hcb]
  · simp [deleteComment, hc, hcb]

/-- C9 witness: member 2 attacking member 1's post and comment, checked
concretely. -/
theorem C9_not_author_witness :
    editPost 2 5 "t".toList "c".toList none none dbOwned = (.error .notAuthor, dbOwned)
  ∧ deletePost 2 5 dbOwned = (.error .notAuthor, dbOwned)
  ∧ editComment 2 9 "x".toList dbOwned = (.error .notAuthor, dbOwned)
  ∧ deleteComment 2 9 dbOwned = (.error .notAuthor, dbOwned) :=
  C9_not_author 2 5 9 "t".toList "c".toList "x".toList none none dbOwned
    (mkPost 5 1 0) (mkComment 9 1 5) (by decide) (by decide) (by decide) (by decide)

/-! ## Login indistinguishability -/

/-- C10: a login with an email matching no member and a login with an
existing email but a failing password verification produce the *same*
`InvalidCredentials` result value — the caller cannot tell the two apart —
and in both runs no session is established (no member id is returned) and
the store is returned unchanged. -/
theorem C10_login_indistinguishable (verify : List Char → List Char → Bool)
    (db : DB) (e1 pw1 e2 pw2 hs : List Char) (u : User)
    (h1 : db.users.find? (fun v => v.email == e1) = none)
    (h2 : db.users.find? (fun v => v.email == e2) = some u)
    (h3 : u.password_hash = some hs) (h4 : verify hs pw2 = false) :
    login verify e1 pw1 db = (.error .invalidCredentials, db)
  ∧ login verify e2 pw2 db = (.error .invalidCredentials, db)
  ∧ login verify e1 pw1 db = login verify e2 pw2 db := by
  have ha : login verify e1 pw1 db = (.error .invalidCredentials, db) := by
    unfold login
    rw [h1]
  have hb : login verify e2 pw2 db = (.error .invalidCredentials, db) := by
    simp [login, checkPassword, h2, h3, h4]
  exact ⟨ha, hb, by rw [ha, hb]⟩

/-- C10 witness: an unknown email and a wrong password against alice's
account, with a concrete verifier, yield the identical outcome. -/
theorem C10_login_indistinguishable_witness :
    login (fun h p => h == p) "nobody@x.com".toList "pw".toList dbFresh =
      (.error .invalidCredentials, dbFresh)
  ∧ login (fun h p => h == p) "alice@x.com".toList "wrong".toList dbFresh =
      (.error .invalidCredentials, dbFresh)
  ∧ login (fun h p => h == p) "nobody@x.com".toList "pw".toList dbFresh =
      login (fun h p => h == p) "alice@x.com".toList "wrong".toList dbFresh :=
  C10_login_indistinguishable (fun h p => h == p) dbFresh
    "nobody@x.com".toList "pw".toList "alice@x.com".toList "wrong".toList
    "h1".toList (plainUser 1 "alice".toList "alice@x.com".toList "h1".toList)
    (by decide) (by decide) (by decide) (by decide)

end SkyHub
